import Mathlib

/-!
Verification of the gyst content-addressable version-control store.

The repository ships two entry-point variants of the same `Gyst` class:
`src/Gyst.js` (embedded below as namespace `GystA`) and a second unnamed
entry point (embedded as namespace `GystB`).  Both are shallowly embedded
over an explicit repository state.

Modelling conventions, fixed once for the whole development:
- The on-disk object store `objects/<digest>` maps a digest string to the
  raw bytes of a file.  A stored object is either the bytes of a staged
  file (a blob) or the JSON serialization of a commit record; the sum type
  `GObj` stands for those bytes, with `JSON.stringify`/`JSON.parse` of a
  commit record modelled as the exact coding `GObj.commitObj`.  Reading a
  blob as commit JSON is modelled as a parse failure.
- `crypto.createHash("sha1")...digest("hex")` and `JSON.stringify` on a
  commit record are external primitives; the embedding takes them as
  function parameters `hashObject : String → String` and
  `stringifyCommit : Commit → String`, so every theorem holds for the
  actual SHA-1/JSON pair in particular.
- The HEAD file is `Option String`: `none` means the file is absent
  (`fs.readFile` rejects), `some s` means it holds the text `s`
  (possibly the empty string, the state right after `init`).
- The index file always parses to a list of entries in the states the
  claims range over (both variants create it on `init`; the second
  variant treats a failed read as `[]`), so the state carries the list
  directly.
- `new Date().toISOString()` is an external clock; `commit` takes the
  timestamp as an argument.
- JavaScript truthiness of a `hash | null` value is `jsTruthy`:
  `null` and `""` are falsy.
-/

/-- One staging-index record `{ path, hash }`. -/
structure IndexEntry where
  path : String
  hash : String
deriving Repr, DecidableEq

/-- A commit record `{ timeStamp, message, files, parent }`; `parent` is a
digest string or JSON `null` (`none`). `src/Gyst.js` can also store the
empty string as parent (it writes the raw HEAD text), hence `some ""` is a
representable parent. -/
structure Commit where
  timeStamp : String
  message : String
  files : List IndexEntry
  parent : Option String
deriving Repr, DecidableEq

/-- Bytes stored under `objects/<digest>`: either a staged file's raw
content or the JSON serialization of a commit record. -/
inductive GObj where
  | blob (content : String)
  | commitObj (c : Commit)
deriving Repr, DecidableEq

/-- The raw text of a stored object: a blob is its own bytes, a commit
object is its JSON serialization. -/
def GObj.text (stringifyCommit : Commit → String) : GObj → String
  | .blob s => s
  | .commitObj c => stringifyCommit c

/-- The `objects/` directory: an association list from digest to stored
bytes; a later `fs.writeFile` shadows an earlier one. -/
def Store := List (String × GObj)

/-- Read the object stored under digest `k` (`fs.readFile` of
`objects/k`); `none` means no such file, the read rejects. -/
def Store.find (s : Store) (k : String) : Option GObj :=
  (List.find? (fun p => p.1 == k) s).map (fun p => p.2)

/-- `fs.writeFile(objects/k, v)`: create or overwrite. -/
def Store.write (s : Store) (k : String) (v : GObj) : Store :=
  (k, v) :: s

/-- The persisted repository state: the `objects/` directory, the text of
the `HEAD` file (`none` if absent), and the parsed `index` file. -/
structure RepoState where
  objects : Store
  head : Option String
  index : List IndexEntry

/-- JavaScript truthiness of a `string | null` commit pointer: `null`,
`undefined` and `""` are falsy. -/
def jsTruthy : Option String → Bool
  | none => false
  | some s => !(s == "")

/-- JavaScript `String.prototype.trim`: strip leading and trailing
whitespace characters. -/
def jsTrim (s : String) : String :=
  String.mk (((s.data.dropWhile Char.isWhitespace).reverse.dropWhile
    Char.isWhitespace).reverse)

/-! ## Variant A: `src/Gyst.js` -/

namespace GystA

/-- `Gyst.updateStagingArea` (src/Gyst.js): reads the index, pushes
`{ path, hash }` unconditionally, writes it back. -/
def updateStagingArea (st : RepoState) (filePath fileHash : String) : RepoState :=
  { st with index := st.index ++ [⟨filePath, fileHash⟩] }

/-- `Gyst.add` (src/Gyst.js): `fileData` is the content read from the
working-tree file; hash it, store the blob under the hash, then stage. -/
def add (hashObject : String → String) (st : RepoState)
    (fileToBeAdded fileData : String) : RepoState :=
  let fileHash := hashObject fileData
  let st1 := { st with objects := st.objects.write fileHash (.blob fileData) }
  updateStagingArea st1 fileToBeAdded fileHash

/-- `Gyst.getCurrentHead` (src/Gyst.js): returns the raw HEAD file text;
only a failed read (absent file) maps to `null`.  An empty HEAD file
yields `""`, not `null`. -/
def getCurrentHead (st : RepoState) : Option String :=
  st.head

/-- `Gyst.commit` (src/Gyst.js): no emptiness guard — builds the commit
record from the current index (even `[]`), stores it, advances HEAD,
clears the index.  Returns the new state and the commit hash. -/
def commit (hashObject : String → String) (stringifyCommit : Commit → String)
    (st : RepoState) (timeStamp message : String) : RepoState × String :=
  let index := st.index
  let parentCommit := getCurrentHead st
  let commitData : Commit := ⟨timeStamp, message, index, parentCommit⟩
  let commitHash := hashObject (stringifyCommit commitData)
  ({ st with
      objects := st.objects.write commitHash (.commitObj commitData),
      head := some commitHash,
      index := [] },
    commitHash)

/-- `Gyst.getFileContent` (src/Gyst.js): reads `objects/<hash>` with no
catch — `none` models the read rejecting (propagating error). -/
def getFileContent (stringifyCommit : Commit → String) (st : RepoState)
    (fileHash : String) : Option String :=
  (st.objects.find fileHash).map (GObj.text stringifyCommit)

end GystA

/-! ## Variant B: the second entry point (src/unnamed/part_000) -/

namespace GystB

/-- `Gyst.updateStagingArea` (part_000): filters out any existing entry
for the path, then pushes the new entry — last-write-wins dedupe. -/
def updateStagingArea (st : RepoState) (filePath fileHash : String) : RepoState :=
  { st with
      index := st.index.filter (fun entry => !(entry.path == filePath))
               ++ [⟨filePath, fileHash⟩] }

/-- `Gyst.add` (part_000): same store-then-stage sequence as variant A,
but staging dedupes. -/
def add (hashObject : String → String) (st : RepoState)
    (fileToBeAdded fileData : String) : RepoState :=
  let fileHash := hashObject fileData
  let st1 := { st with objects := st.objects.write fileHash (.blob fileData) }
  updateStagingArea st1 fileToBeAdded fileHash

/-- `Gyst.getCurrentHead` (part_000): trims the HEAD text and maps both a
failed read and an empty (after trim) file to `null`. -/
def getCurrentHead (st : RepoState) : Option String :=
  match st.head with
  | none => none
  | some s => if jsTrim s == "" then none else some (jsTrim s)

/-- `Gyst.commit` (part_000): exits with "No changes added to commit"
when the index is empty, before any write — the returned state is the
input state and no hash is produced.  Otherwise stores the commit record,
advances HEAD, clears the index. -/
def commit (hashObject : String → String) (stringifyCommit : Commit → String)
    (st : RepoState) (timeStamp message : String) : RepoState × Option String :=
  if st.index.length == 0 then
    (st, none)
  else
    let parentCommit := getCurrentHead st
    let commitData : Commit := ⟨timeStamp, message, st.index, parentCommit⟩
    let commitHash := hashObject (stringifyCommit commitData)
    ({ st with
        objects := st.objects.write commitHash (.commitObj commitData),
        head := some commitHash,
        index := [] },
      some commitHash)

/-- `Gyst.getFileContent` (part_000): a failed read is caught and yields
`""`. -/
def getFileContent (stringifyCommit : Commit → String) (st : RepoState)
    (fileHash : String) : String :=
  match st.objects.find fileHash with
  | some o => o.text stringifyCommit
  | none => ""

end GystB

/-! ## History walk (`Gyst.log`)

Both variants run the same loop: `while (current) { read objects/current;
parse; print; current = parent }`.  The loop body does `fs.readFile` and
`JSON.parse` with no catch, so a missing object (or bytes that are not a
commit record) at any hop is a thrown, propagating error.  The embedding
is fuel-indexed; `WalkResult.out` marks fuel exhaustion (an artifact of
the model, never reached with fuel above the chain length). -/

/-- Outcome of the `log` loop: `ok` — the loop exited normally after
printing `entries`; `err` — `fs.readFile`/`JSON.parse` threw after
printing `entries` (a propagating, uncaught error); `out` — model fuel
exhausted. -/
inductive WalkResult where
  | ok (entries : List (String × Commit))
  | err (entries : List (String × Commit))
  | out
deriving Repr, DecidableEq

/-- The shared `while (current)` loop of `Gyst.log` in both variants. -/
def logLoop (st : RepoState) : Nat → Option String → WalkResult
  | 0, cur => if jsTruthy cur then .out else .ok []
  | fuel + 1, cur =>
    match cur with
    | none => .ok []
    | some h =>
      if h == "" then .ok []
      else
        match st.objects.find h with
        | some (.commitObj c) =>
          match logLoop st fuel c.parent with
          | .ok es => .ok ((h, c) :: es)
          | .err es => .err ((h, c) :: es)
          | .out => .out
        | _ => .err []

namespace GystA

/-- `Gyst.log` (src/Gyst.js): starts from the raw HEAD text and runs the
walk loop. -/
def log (st : RepoState) (fuel : Nat) : WalkResult :=
  logLoop st fuel (getCurrentHead st)

end GystA

namespace GystB

/-- `Gyst.log` (part_000): `fs.access(HEAD)` first — an absent HEAD file
is a hard "no repository" exit, modelled as `none`; a falsy head prints
"No commits yet" and returns (`ok []`); otherwise the shared loop runs. -/
def log (st : RepoState) (fuel : Nat) : Option WalkResult :=
  match st.head with
  | none => none
  | some _ =>
    if jsTruthy (getCurrentHead st) then
      some (logLoop st fuel (getCurrentHead st))
    else
      some (.ok [])

end GystB

/-! ## Line diff (external `diffLines` of the jsdiff package)

Modelled from the spec: `diffLines` comes from the external `diff`
npm package, not from this repository.  Per the spec's DiffRenderer
section it is a line-oriented minimal edit script (classic LCS-based line
diff) reporting maximal contiguous runs of equal, added or removed lines
in document order. -/

/-- Kind of a diff run: unchanged, added (present only in the new text),
or removed (present only in the old text). -/
inductive LKind where
  | equal
  | added
  | removed
deriving Repr, DecidableEq

/-- A maximal contiguous run of lines of one kind. -/
structure DiffRun where
  kind : LKind
  lines : List String
deriving Repr, DecidableEq

/-- Modelled from the spec: split text content into lines at newline
characters (the tokenization step of the external line differ). -/
def splitLinesC : List Char → List (List Char)
  | [] => [[]]
  | c :: cs =>
    let r := splitLinesC cs
    if c == '\n' then [] :: r
    else
      match r with
      | [] => [[c]]
      | l :: ls => (c :: l) :: ls

/-- Lines of a string. -/
def splitLines (s : String) : List String :=
  (splitLinesC s.data).map (fun cs => String.mk cs)

/-- Cost of an edit script: the number of non-equal line operations. -/
def opsCost (l : List (LKind × String)) : Nat :=
  (l.filter (fun p => !(p.1 == LKind.equal))).length

/-- Modelled from the spec: minimal edit script between two line lists
(classic LCS-based line diff), one operation per line, in document
order. -/
def lineOps : List String → List String → List (LKind × String)
  | [], [] => []
  | [], y :: ys => (.added, y) :: lineOps [] ys
  | x :: xs, [] => (.removed, x) :: lineOps xs []
  | x :: xs, y :: ys =>
    if x == y then
      (.equal, x) :: lineOps xs ys
    else
      let d := (LKind.removed, x) :: lineOps xs (y :: ys)
      let i := (LKind.added, y) :: lineOps (x :: xs) ys
      if opsCost d ≤ opsCost i then d else i
termination_by a b => a.length + b.length

/-- Group consecutive operations of one kind into maximal runs. -/
def groupOps : List (LKind × String) → List DiffRun
  | [] => []
  | (k, s) :: rest =>
    match groupOps rest with
    | [] => [⟨k, [s]⟩]
    | r :: rs =>
      if r.kind == k then ⟨k, s :: r.lines⟩ :: rs
      else ⟨k, [s]⟩ :: r :: rs

/-- Modelled from the spec: the external `diffLines(oldText, newText)` —
split both texts into lines, compute the minimal line edit script, report
maximal runs. -/
def diffLines (oldText newText : String) : List DiffRun :=
  groupOps (lineOps (splitLines oldText) (splitLines newText))

/-! ## Per-commit diff (`Gyst.showCommitDiff`) -/

/-- What the diff command prints for one file of the target commit, after
the file's own content. -/
inductive FileReport where
  | firstCommit
  | newFile
  | parentMissing
  | diffed (runs : List DiffRun)
deriving Repr, DecidableEq

/-- The per-file block of output: the file's path, the content printed
for it, and the comparison report. -/
structure FileOutput where
  path : String
  content : String
  report : FileReport
deriving Repr, DecidableEq

/-- Outcome of `showCommitDiff`: `noRepo` — variant B's missing-HEAD
exit; `notFound` — the target commit hash does not resolve; `errored` —
an uncaught exception was thrown after producing `done` file blocks
(propagating error, the remaining files are never processed); `ok` — all
files processed. -/
inductive DiffResult where
  | noRepo
  | notFound
  | errored (done : List FileOutput)
  | ok (done : List FileOutput)
deriving Repr, DecidableEq

/-- Append a file block to every non-aborting outcome of the remaining
loop iterations. -/
def consFile (out : FileOutput) : DiffResult → DiffResult
  | .ok outs => .ok (out :: outs)
  | .errored outs => .errored (out :: outs)
  | r => r

/-- Run the `for (const file of commitData.files)` loop: the step either
yields a file block or throws (aborting the loop and the command). -/
def loopFiles (step : IndexEntry → Except Unit FileOutput) :
    List IndexEntry → DiffResult
  | [] => .ok []
  | e :: es =>
    match step e with
    | .error () => .errored []
    | .ok out => consFile out (loopFiles step es)

namespace GystA

/-- One iteration of the file loop of `Gyst.showCommitDiff`
(src/Gyst.js).  `getFileContent` has no catch, so a missing blob throws.
A parent hash that does not resolve makes `getCommitData` return `null`;
`JSON.parse(null)` is `null`, and `null.files` inside
`getParentFileContent` throws a TypeError — the whole command aborts.
Parent bytes that are not commit JSON make `JSON.parse` throw. -/
def diffFile (stringifyCommit : Commit → String) (st : RepoState)
    (commitData : Commit) (file : IndexEntry) : Except Unit FileOutput :=
  match getFileContent stringifyCommit st file.hash with
  | none => Except.error ()
  | some fileContent =>
  if jsTruthy commitData.parent then
    match commitData.parent with
    | none => Except.error ()
    | some ph =>
      match st.objects.find ph with
      | none => Except.error ()
      | some (.blob _) => Except.error ()
      | some (.commitObj parentCommitData) =>
        match parentCommitData.files.find? (fun f => f.path == file.path) with
        | none => Except.ok ⟨file.path, fileContent, .newFile⟩
        | some parentFile =>
          match getFileContent stringifyCommit st parentFile.hash with
          | none => Except.error ()
          | some parentFileContent =>
            Except.ok ⟨file.path, fileContent,
              .diffed (diffLines parentFileContent fileContent)⟩
  else
    Except.ok ⟨file.path, fileContent, .firstCommit⟩

/-- `Gyst.showCommitDiff` (src/Gyst.js): `getCommitData` catches the read
failure and returns `null`; `JSON.parse(null)` is `null`, so a missing
target commit prints "not found" and returns.  Target bytes that are not
commit JSON make `JSON.parse` throw before the loop. -/
def showCommitDiff (stringifyCommit : Commit → String) (st : RepoState)
    (commitHash : String) : DiffResult :=
  match st.objects.find commitHash with
  | none => .notFound
  | some (.blob _) => .errored []
  | some (.commitObj commitData) =>
    loopFiles (diffFile stringifyCommit st commitData) commitData.files

end GystA

namespace GystB

/-- One iteration of the file loop of `Gyst.showCommitDiff` (part_000).
`getFileContent` catches read failures (yielding `""`).  A parent hash
that does not resolve prints "(Parent commit object missing.)" and the
loop continues with the next file; only parent bytes that are not commit
JSON still make the uncaught `JSON.parse` throw. -/
def diffFile (stringifyCommit : Commit → String) (st : RepoState)
    (commitData : Commit) (file : IndexEntry) : Except Unit FileOutput :=
  let fileContent := getFileContent stringifyCommit st file.hash
  if jsTruthy commitData.parent then
    match commitData.parent with
    | none => Except.error ()
    | some ph =>
      match st.objects.find ph with
      | none => Except.ok ⟨file.path, fileContent, .parentMissing⟩
      | some (.blob _) => Except.error ()
      | some (.commitObj parentCommitData) =>
        match parentCommitData.files.find? (fun f => f.path == file.path) with
        | none => Except.ok ⟨file.path, fileContent, .newFile⟩
        | some parentFile =>
          Except.ok ⟨file.path, fileContent,
            .diffed (diffLines
              (getFileContent stringifyCommit st parentFile.hash)
              fileContent)⟩
  else
    Except.ok ⟨file.path, fileContent, .firstCommit⟩

/-- `Gyst.showCommitDiff` (part_000): an absent HEAD file is a hard "no
repository" exit; a target hash that does not resolve is "Commit not
found", exit 1; target bytes that are not commit JSON make `JSON.parse`
throw before the loop. -/
def showCommitDiff (stringifyCommit : Commit → String) (st : RepoState)
    (commitHash : String) : DiffResult :=
  match st.head with
  | none => .noRepo
  | some _ =>
    match st.objects.find commitHash with
    | none => .notFound
    | some (.blob _) => .errored []
    | some (.commitObj commitData) =>
      loopFiles (diffFile stringifyCommit st commitData) commitData.files

end GystB

/-! ## Pointer integrity and commit chains -/

/-- A digest resolves iff some object is stored under it. -/
def resolves (store : Store) (h : String) : Bool :=
  (store.find h).isSome

/-- Pointer integrity of a repository state: a non-empty HEAD resolves in
the object store, and so does the hash of every staging-index entry. -/
def pointerIntegrity (st : RepoState) : Bool :=
  (match st.head with
   | none => true
   | some h => (h == "") || resolves st.objects h)
  && st.index.all (fun e => resolves st.objects e.hash)

/-- An acyclic parent chain of stored commits: `Chain store h cs` says
the non-empty digest `h` resolves to the commit chain `cs` (head first),
each commit stored under its digest, each parent the next digest, the
last parent `null`.  Finiteness of `cs` makes the chain acyclic. -/
inductive Chain (store : Store) : String → List (String × Commit) → Prop
  | root (h : String) (c : Commit) :
      h ≠ "" → store.find h = some (.commitObj c) → c.parent = none →
      Chain store h [(h, c)]
  | step (h p : String) (c : Commit) (rest : List (String × Commit)) :
      h ≠ "" → store.find h = some (.commitObj c) → c.parent = some p →
      Chain store p rest → Chain store h ((h, c) :: rest)

/-- A stored parent chain that ends at a dangling digest:
`ChainTo store h cs p` says the non-empty digest `h` resolves through
the stored commits `cs` (head first, any number of hops), and the last
commit of `cs` has the non-empty parent digest `p` — the next hop, which
need not resolve. -/
inductive ChainTo (store : Store) : String → List (String × Commit) → String → Prop
  | last (h p : String) (c : Commit) :
      h ≠ "" → store.find h = some (.commitObj c) → c.parent = some p →
      p ≠ "" → ChainTo store h [(h, c)] p
  | step (h p q : String) (c : Commit) (rest : List (String × Commit)) :
      h ≠ "" → store.find h = some (.commitObj c) → c.parent = some p →
      ChainTo store p rest q → ChainTo store h ((h, c) :: rest) q

/-- The file blocks a diff outcome produced before finishing or
aborting. -/
def DiffResult.outputs : DiffResult → List FileOutput
  | .ok l => l
  | .errored l => l
  | _ => []

/-! ## Concrete sample data used by witnesses and counterexamples -/

/-- A concrete stand-in for the SHA-1 hex digest function, used only to
instantiate theorems at concrete inputs. -/
def sampleHash (s : String) : String :=
  "#" ++ s

/-- A concrete stand-in for `JSON.stringify` on commit records, used only
to instantiate theorems at concrete inputs. -/
def sampleStringify (c : Commit) : String :=
  c.timeStamp ++ ";" ++ c.message ++ ";" ++ toString c.files.length ++ ";" ++
    (match c.parent with
     | none => "null"
     | some s => "@" ++ s)

/-- A fresh repository right after `init`: empty store, empty HEAD file,
empty index. -/
def freshRepo : RepoState := ⟨[], some "", []⟩

/-- A commit whose parent digest "H0" is absent from the store. -/
def cDemo : Commit := ⟨"t2", "m2", [⟨"a.txt", "ha"⟩, ⟨"b.txt", "hb"⟩], some "H0"⟩

/-- A state holding `cDemo` under "H2" and its two blobs, but not its
parent "H0". -/
def stDemo : RepoState :=
  ⟨[("H2", .commitObj cDemo), ("ha", .blob "A"), ("hb", .blob "B")], some "H2", []⟩

/-- A root commit (parent `null`) listing one file. -/
def cRoot : Commit := ⟨"t1", "m1", [⟨"a.txt", "ha"⟩], none⟩

/-- A state holding `cRoot` under "H1" and its blob. -/
def stRoot : RepoState :=
  ⟨[("H1", .commitObj cRoot), ("ha", .blob "A")], some "H1", []⟩

/-- A single commit whose parent "H0" was never stored. -/
def cMiss : Commit := ⟨"t1", "m1", [], some "H0"⟩

/-- HEAD resolves to `cMiss`; the next hop "H0" is missing. -/
def stMiss : RepoState := ⟨[("H1", .commitObj cMiss)], some "H1", []⟩

/-- Two stored commits; the second one's parent "G0" is missing. -/
def cMiss2a : Commit := ⟨"t2", "m2", [], some "G1"⟩

/-- The middle commit of the broken two-hop history. -/
def cMiss2b : Commit := ⟨"t1", "m1", [], some "G0"⟩

/-- HEAD resolves through "G2" and "G1"; the hop to "G0" is missing. -/
def stMiss2 : RepoState :=
  ⟨[("G2", .commitObj cMiss2a), ("G1", .commitObj cMiss2b)], some "G2", []⟩

/-- A well-formed two-commit chain: "K2" is the child of root "K1". -/
def cChain2 : Commit := ⟨"t2", "m2", [], some "K1"⟩

/-- The root commit of the two-commit chain. -/
def cChain1 : Commit := ⟨"t1", "m1", [], none⟩

/-- HEAD "K2" reaches root "K1" through stored commits. -/
def stChain : RepoState :=
  ⟨[("K2", .commitObj cChain2), ("K1", .commitObj cChain1)], some "K2", []⟩

/-- A fresh repository (empty HEAD file) with one staged entry. -/
def stC3 : RepoState := ⟨[], some "", [⟨"a.txt", "ha"⟩]⟩

/-! ## Helper lemmas -/

/-- Reading back the digest just written yields the written object. -/
theorem Store.find_write_self (s : Store) (k : String) (v : GObj) :
    (s.write k v).find k = some v := by
  simp [Store.write, Store.find, List.find?]

/-- A write leaves every other digest's resolution unchanged. -/
theorem Store.find_write_ne (s : Store) (k h : String) (v : GObj)
    (hne : (k == h) = false) : (s.write k v).find h = s.find h := by
  simp [Store.write, Store.find, List.find?, hne]

/-- Resolution after a write: the written digest or anything that already
resolved. -/
theorem resolves_write (s : Store) (k h : String) (v : GObj) :
    resolves (s.write k v) h = ((k == h) || resolves s h) := by
  by_cases hk : k = h
  · subst hk
    simp [resolves, Store.find_write_self]
  · have hkb : (k == h) = false := by simpa using hk
    simp [resolves, Store.find_write_ne s k h v hkb, hkb]

/-- A file loop whose every step succeeds processes all files in order. -/
theorem loopFiles_ok (step : IndexEntry → Except Unit FileOutput)
    (out : IndexEntry → FileOutput) (es : List IndexEntry)
    (h : ∀ e ∈ es, step e = .ok (out e)) :
    loopFiles step es = .ok (es.map out) := by
  induction es with
  | nil => rfl
  | cons e es ih =>
    have he : step e = .ok (out e) := h e (by simp)
    simp only [loopFiles, he, List.map]
    rw [ih (fun x hx => h x (by simp [hx]))]
    rfl

/-- Every file block a loop produces (even before an abort) has the
report its step always attaches. -/
theorem loopFiles_outputs_report (step : IndexEntry → Except Unit FileOutput)
    (es : List IndexEntry) (r : FileReport)
    (h : ∀ e ∈ es, ∀ o, step e = .ok o → o.report = r) :
    ∀ o ∈ (loopFiles step es).outputs, o.report = r := by
  induction es with
  | nil => simp [loopFiles, DiffResult.outputs]
  | cons e es ih =>
    intro o ho
    simp only [loopFiles] at ho
    cases hstep : step e with
    | error u => simp [hstep, DiffResult.outputs] at ho
    | ok fo =>
      have hfo : fo.report = r := h e (by simp) fo hstep
      have ihh := ih (fun x hx => h x (by simp [hx]))
      rw [hstep] at ho
      cases hrest : loopFiles step es with
      | ok l =>
        rw [hrest] at ho
        simp only [consFile, DiffResult.outputs, List.mem_cons] at ho
        rcases ho with h1 | h2
        · exact h1 ▸ hfo
        · exact ihh o (by rw [hrest]; exact h2)
      | errored l =>
        rw [hrest] at ho
        simp only [consFile, DiffResult.outputs, List.mem_cons] at ho
        rcases ho with h1 | h2
        · exact h1 ▸ hfo
        · exact ihh o (by rw [hrest]; exact h2)
      | notFound =>
        rw [hrest] at ho
        simp [consFile, DiffResult.outputs] at ho
      | noRepo =>
        rw [hrest] at ho
        simp [consFile, DiffResult.outputs] at ho

/-- The per-line edit script of a text against itself is all-equal. -/
theorem lineOps_self (xs : List String) :
    lineOps xs xs = xs.map (fun x => (LKind.equal, x)) := by
  induction xs with
  | nil => simp [lineOps]
  | cons x xs ih => simp [lineOps, ih]

/-- Grouping a non-empty all-equal script yields one Equal run. -/
theorem groupOps_all_equal (x : String) (xs : List String) :
    groupOps ((x :: xs).map (fun y => (LKind.equal, y)))
      = [⟨LKind.equal, x :: xs⟩] := by
  induction xs generalizing x with
  | nil => rfl
  | cons y ys ih =>
    have h1 := ih y
    show (match groupOps (List.map (fun z => (LKind.equal, z)) (y :: ys)) with
          | [] => [⟨LKind.equal, [x]⟩]
          | r :: rs =>
            if r.kind == LKind.equal then ⟨LKind.equal, x :: r.lines⟩ :: rs
            else ⟨LKind.equal, [x]⟩ :: r :: rs)
        = [⟨LKind.equal, x :: y :: ys⟩]
    rw [h1]
    rfl

/-- Splitting a character list into lines never yields zero lines. -/
theorem splitLinesC_ne_nil (cs : List Char) : splitLinesC cs ≠ [] := by
  induction cs with
  | nil => simp [splitLinesC]
  | cons c cs ih =>
    simp only [splitLinesC]
    by_cases hc : (c == '\n')
    · simp [hc]
    · simp only [hc, if_neg]
      cases hr : splitLinesC cs with
      | nil => exact absurd hr ih
      | cons l ls => simp

/-- Splitting a string into lines never yields zero lines. -/
theorem splitLines_ne_nil (s : String) : splitLines s ≠ [] := by
  simp [splitLines, splitLinesC_ne_nil]

/-- A `null` (or absent) pointer ends the walk loop at once, at any
fuel. -/
theorem logLoop_none (st : RepoState) (fuel : Nat) :
    logLoop st fuel none = .ok [] := by
  cases fuel <;> simp [logLoop, jsTruthy]

/-- The walk loop follows a stored chain to its root and returns it. -/
theorem chain_logLoop (st : RepoState) (h : String)
    (cs : List (String × Commit)) (hchain : Chain st.objects h cs) :
    ∀ fuel, cs.length ≤ fuel → logLoop st fuel (some h) = .ok cs := by
  induction hchain with
  | root h c hne hfind hparent =>
    intro fuel hf
    match fuel, hf with
    | fuel + 1, _ =>
      have hb : (h == "") = false := by simpa using hne
      simp [logLoop, hb, hfind, hparent, logLoop_none]
  | step h p c rest hne hfind hparent _ ih =>
    intro fuel hf
    match fuel, hf with
    | fuel + 1, hf =>
      have hb : (h == "") = false := by simpa using hne
      have hrest : logLoop st fuel (some p) = .ok rest := by
        apply ih
        simpa using Nat.le_of_succ_le_succ hf
      simp [logLoop, hb, hfind, hparent, hrest]

/-- A chain hop whose parent digest does not resolve makes the walk loop
throw right after yielding the commits read so far. -/
theorem logLoop_missing_hop (st : RepoState) (h p : String) (c : Commit)
    (hne : h ≠ "") (hfind : st.objects.find h = some (.commitObj c))
    (hparent : c.parent = some p) (hpne : p ≠ "")
    (hmiss : st.objects.find p = none) :
    ∀ fuel, 2 ≤ fuel → logLoop st fuel (some h) = .err [(h, c)] := by
  intro fuel hf
  match fuel, hf with
  | fuel + 2, _ =>
    have hb : (h == "") = false := by simpa using hne
    have hpb : (p == "") = false := by simpa using hpne
    simp [logLoop, hb, hfind, hparent, hpb, hmiss]

/-- A stored chain whose final parent digest does not resolve makes the
walk loop throw right after yielding all the commits of the chain, at
any depth. -/
theorem chainTo_logLoop_err (st : RepoState) (h p : String)
    (cs : List (String × Commit)) (hchain : ChainTo st.objects h cs p)
    (hmiss : st.objects.find p = none) :
    ∀ fuel, cs.length + 1 ≤ fuel → logLoop st fuel (some h) = .err cs := by
  induction hchain with
  | last h p c hne hfind hparent hpne =>
    exact logLoop_missing_hop st h p c hne hfind hparent hpne hmiss
  | step h p q c rest hne hfind hparent _ ih =>
    intro fuel hf
    match fuel, hf with
    | fuel + 1, hf =>
      have hb : (h == "") = false := by simpa using hne
      have hrest : logLoop st fuel (some p) = .err rest := by
        apply ih hmiss
        simpa using Nat.le_of_succ_le_succ hf
      simp [logLoop, hb, hfind, hparent, hrest]

/-! ## Claims -/

/-- C1 (counterexample): in `src/Gyst.js` staging path "a" twice from a
fresh repository leaves TWO index entries for "a", refuting the claim
that the persisted index ends with exactly one entry for the path. -/
theorem c1_counterexample :
    (GystA.updateStagingArea (GystA.updateStagingArea freshRepo "a" "h1") "a" "h2").index
      = [⟨"a", "h1"⟩, ⟨"a", "h2"⟩] ∧
    ((GystA.updateStagingArea (GystA.updateStagingArea freshRepo "a" "h1") "a" "h2").index.filter
        (fun e => e.path == "a")).length = 2 := by
  exact ⟨rfl, rfl⟩

/-- C1 (amended): staging a path twice leaves exactly one entry for it,
carrying the second hash, in the part_000 variant of
`updateStagingArea`; the `src/Gyst.js` variant instead appends
unconditionally, so the prior entry stays and a second entry with the
second hash is added after it. -/
theorem c1_staging_dedupe (st : RepoState) (p h1 h2 : String) :
    (GystB.updateStagingArea (GystB.updateStagingArea st p h1) p h2).index.filter
        (fun e => e.path == p) = [⟨p, h2⟩] ∧
    (GystA.updateStagingArea (GystA.updateStagingArea st p h1) p h2).index
      = st.index ++ [⟨p, h1⟩, ⟨p, h2⟩] := by
  constructor
  · simp [GystB.updateStagingArea, List.filter_append, List.filter_filter]
  · simp [GystA.updateStagingArea]

/-- C2 (amended): in the part_000 variant, `commit` on an empty staging
index exits with "No changes added to commit" before performing any
write: the repository state (HEAD, index, object store) is returned
unchanged and no commit hash is produced.  The `src/Gyst.js` variant has
no such guard (see the counterexample). -/
theorem c2_commit_empty_guard (hashObject : String → String)
    (stringifyCommit : Commit → String) (st : RepoState)
    (timeStamp message : String) (h : st.index = []) :
    GystB.commit hashObject stringifyCommit st timeStamp message = (st, none) := by
  simp [GystB.commit, h]

/-- C2 (witness): the guard fires on a fresh repository. -/
theorem c2_witness :
    freshRepo.index = [] ∧
    GystB.commit sampleHash sampleStringify freshRepo "t0" "oops" = (freshRepo, none) :=
  ⟨rfl, c2_commit_empty_guard sampleHash sampleStringify freshRepo "t0" "oops" rfl⟩

/-- C2 (counterexample): in `src/Gyst.js`, `commit` with an empty staging
index does NOT fail — it writes a (files-empty) commit object into the
store and advances HEAD, refuting the claimed emptiness guard and its
no-writes atomicity. -/
theorem c2_counterexample :
    freshRepo.index = [] ∧
    (GystA.commit sampleHash sampleStringify freshRepo "t0" "oops").1.head ≠ freshRepo.head ∧
    resolves (GystA.commit sampleHash sampleStringify freshRepo "t0" "oops").1.objects
      (sampleHash (sampleStringify ⟨"t0", "oops", [], some ""⟩)) = true ∧
    resolves freshRepo.objects
      (sampleHash (sampleStringify ⟨"t0", "oops", [], some ""⟩)) = false := by
  refine ⟨rfl, by decide, rfl, rfl⟩

/-- C3 (amended): in the part_000 variant, `getCurrentHead` maps an
absent HEAD file and an empty HEAD file alike to `null` (never an
error), and the first commit made in such a state stores `parent =
null`.  In `src/Gyst.js`, `getCurrentHead` returns the raw file text, so
an empty HEAD yields `""` and the first commit's stored parent is `""`,
not `null` (see the counterexample). -/
theorem c3_head_empty_null (hashObject : String → String)
    (stringifyCommit : Commit → String) (st : RepoState)
    (timeStamp message : String)
    (hh : st.head = none ∨ st.head = some "") (hi : st.index ≠ []) :
    GystB.getCurrentHead st = none ∧
    (GystB.commit hashObject stringifyCommit st timeStamp message).1.objects.find
        (hashObject (stringifyCommit ⟨timeStamp, message, st.index, none⟩))
      = some (.commitObj ⟨timeStamp, message, st.index, none⟩) := by
  have hgch : GystB.getCurrentHead st = none := by
    rcases hh with h | h <;> rw [GystB.getCurrentHead, h]
    rfl
  refine ⟨hgch, ?_⟩
  have hlen : (st.index.length == 0) = false := by
    cases hidx : st.index with
    | nil => exact absurd hidx hi
    | cons a l => simp
  simp [GystB.commit, hlen, hgch, Store.find_write_self]

/-- C3 (witness): a fresh repository (HEAD exists, empty) with one staged
entry: `getCurrentHead` is `null` and the commit stores `parent = null`. -/
theorem c3_witness :
    GystB.getCurrentHead stC3 = none ∧
    (GystB.commit sampleHash sampleStringify stC3 "t0" "first").1.objects.find
        (sampleHash (sampleStringify ⟨"t0", "first", stC3.index, none⟩))
      = some (.commitObj ⟨"t0", "first", stC3.index, none⟩) :=
  c3_head_empty_null sampleHash sampleStringify stC3 "t0" "first" (Or.inr rfl) (by decide)

/-- C3 (counterexample): in `src/Gyst.js`, an existing-but-empty HEAD
file makes `getCurrentHead` return `""` (not `null`), and the first
commit of a fresh repository stores `parent = ""`, refuting the claim
for that variant. -/
theorem c3_counterexample :
    GystA.getCurrentHead freshRepo = some "" ∧
    GystA.getCurrentHead freshRepo ≠ none ∧
    (GystA.commit sampleHash sampleStringify freshRepo "t0" "first").1.objects.find
        ((GystA.commit sampleHash sampleStringify freshRepo "t0" "first").2)
      = some (.commitObj ⟨"t0", "first", [], some ""⟩) := by
  refine ⟨rfl, by decide, rfl⟩

/-- C6: store round-trip — after `add` stores content `c` under
`hash(c)`, `getFileContent (hash c)` returns exactly `c`, in both
variants and for every digest function. -/
theorem c6_store_roundtrip (hashObject : String → String)
    (stringifyCommit : Commit → String) (st : RepoState)
    (fileToBeAdded fileData : String) :
    GystA.getFileContent stringifyCommit
        (GystA.add hashObject st fileToBeAdded fileData) (hashObject fileData)
      = some fileData ∧
    GystB.getFileContent stringifyCommit
        (GystB.add hashObject st fileToBeAdded fileData) (hashObject fileData)
      = fileData := by
  constructor
  · simp [GystA.add, GystA.updateStagingArea, GystA.getFileContent,
      Store.find_write_self, GObj.text]
  · simp [GystB.add, GystB.updateStagingArea, GystB.getFileContent,
      Store.find_write_self, GObj.text]

/-- C9: diff identity — the line diff of any text against itself is a
single Equal run spanning all of its lines, with no Added and no Removed
runs. -/
theorem c9_diff_identity (x : String) :
    diffLines x x = [⟨LKind.equal, splitLines x⟩] := by
  unfold diffLines
  rw [lineOps_self]
  cases hsp : splitLines x with
  | nil => exact absurd hsp (splitLines_ne_nil x)
  | cons l ls => exact groupOps_all_equal l ls

/-- C4 (amended): in the part_000 variant, diffing a commit whose parent
digest does not resolve reports "(Parent commit object missing.)" for
each affected file and continues with the remaining files, completing
the command.  In `src/Gyst.js` the same situation throws a TypeError
(`JSON.parse(null)` is `null`; `null.files` aborts the whole command) —
see the counterexample. -/
theorem c4_missing_parent_recoverable (stringifyCommit : Commit → String)
    (st : RepoState) (commitHash hd p : String) (c : Commit)
    (hh : st.head = some hd)
    (hc : st.objects.find commitHash = some (.commitObj c))
    (hp : c.parent = some p) (hpne : p ≠ "")
    (hmiss : st.objects.find p = none) :
    GystB.showCommitDiff stringifyCommit st commitHash
      = .ok (c.files.map (fun f =>
          ⟨f.path, GystB.getFileContent stringifyCommit st f.hash,
           .parentMissing⟩)) := by
  have hpb : (p == "") = false := by simpa using hpne
  have hstep : ∀ e ∈ c.files, GystB.diffFile stringifyCommit st c e
      = .ok ⟨e.path, GystB.getFileContent stringifyCommit st e.hash,
             .parentMissing⟩ := by
    intro e _
    simp [GystB.diffFile, hp, jsTruthy, hpb, hmiss]
  simp [GystB.showCommitDiff, hh, hc, loopFiles_ok _ _ _ hstep]

/-- C4 (witness): a concrete two-file commit with a missing parent — the
part_000 diff reports both files and finishes. -/
theorem c4_witness :
    GystB.showCommitDiff sampleStringify stDemo "H2"
      = .ok (cDemo.files.map (fun f =>
          ⟨f.path, GystB.getFileContent sampleStringify stDemo f.hash,
           .parentMissing⟩)) :=
  c4_missing_parent_recoverable sampleStringify stDemo "H2" "H2" "H0" cDemo
    rfl rfl rfl (by decide) rfl

/-- C4 (counterexample): on the same state, the `src/Gyst.js` diff aborts
with a propagating error before reporting ANY of the two files — it does
not report the missing parent and does not continue with the remaining
files, refuting the claim for that variant. -/
theorem c4_counterexample :
    GystA.showCommitDiff sampleStringify stDemo "H2" = .errored [] ∧
    cDemo.files.length = 2 ∧
    (GystA.showCommitDiff sampleStringify stDemo "H2").outputs = [] := by
  exact ⟨rfl, rfl, rfl⟩

/-- C5 (amended): in BOTH variants, a commit reached at a later hop of
the history walk whose parent digest does not resolve makes the walk
throw a propagating error (the uncaught `fs.readFile` rejection) right
after printing the commits read so far; no warning is surfaced and the
walk does not stop gracefully. -/
theorem c5_missing_hop_is_error (st : RepoState) (h p : String)
    (cs : List (String × Commit)) (fuel : Nat)
    (hh : st.head = some h) (htrim : jsTrim h = h)
    (hchain : ChainTo st.objects h cs p)
    (hmiss : st.objects.find p = none) (hfuel : cs.length + 1 ≤ fuel) :
    GystA.log st fuel = .err cs ∧
    GystB.log st fuel = some (.err cs) := by
  have hne : h ≠ "" := by
    cases hchain with
    | last _ _ _ hne _ _ _ => exact hne
    | step _ _ _ _ _ hne _ _ _ => exact hne
  have hloop := chainTo_logLoop_err st h p cs hchain hmiss fuel hfuel
  have hb : (h == "") = false := by simpa using hne
  have hgch : GystB.getCurrentHead st = some h := by
    simp [GystB.getCurrentHead, hh, htrim, hb]
  constructor
  · simpa [GystA.log, GystA.getCurrentHead, hh] using hloop
  · simp [GystB.log, hh, hgch, jsTruthy, hb, hloop]

/-- C5 (witness): two stored commits "G2" → "G1" whose root parent "G0"
is absent — both walks print both commits and then throw. -/
theorem c5_witness :
    GystA.log stMiss2 3 = .err [("G2", cMiss2a), ("G1", cMiss2b)] ∧
    GystB.log stMiss2 3 = some (.err [("G2", cMiss2a), ("G1", cMiss2b)]) :=
  c5_missing_hop_is_error stMiss2 "G2" "G0" [("G2", cMiss2a), ("G1", cMiss2b)] 3
    rfl (by decide)
    (ChainTo.step "G2" "G1" "G0" cMiss2a [("G1", cMiss2b)] (by decide) rfl rfl
      (ChainTo.last "G1" "G0" cMiss2b (by decide) rfl rfl (by decide)))
    rfl (by decide)

/-- C5 (counterexample): a two-commit history whose root parent "G0" was
purged — in both variants the walk ends in a thrown, propagating error
(`WalkResult.err`), not in a graceful stop with a warning, refuting the
claimed recoverable handling. -/
theorem c5_counterexample :
    GystA.log stMiss2 5 = .err [("G2", cMiss2a), ("G1", cMiss2b)] ∧
    GystB.log stMiss2 5 = some (.err [("G2", cMiss2a), ("G1", cMiss2b)]) := by
  exact ⟨rfl, rfl⟩

/-- C7: diffing a commit with `parent = null` reports "first commit, no
parent to diff against" for the files and computes no line diff: in the
part_000 variant every file is reported so, and in `src/Gyst.js` every
produced file block is the first-commit report (and when every listed
blob resolves, all files are reported so) — in particular no Added or
Removed run is ever produced. -/
theorem c7_first_commit_diff (stringifyCommit : Commit → String)
    (st : RepoState) (commitHash hd : String) (c : Commit)
    (hh : st.head = some hd)
    (hc : st.objects.find commitHash = some (.commitObj c))
    (hp : c.parent = none) :
    GystB.showCommitDiff stringifyCommit st commitHash
      = .ok (c.files.map (fun f =>
          ⟨f.path, GystB.getFileContent stringifyCommit st f.hash,
           .firstCommit⟩)) ∧
    (∀ o ∈ (GystA.showCommitDiff stringifyCommit st commitHash).outputs,
      o.report = .firstCommit) ∧
    ((∀ f ∈ c.files, resolves st.objects f.hash = true) →
      GystA.showCommitDiff stringifyCommit st commitHash
        = .ok (c.files.map (fun f =>
            ⟨f.path, (GystA.getFileContent stringifyCommit st f.hash).getD "",
             .firstCommit⟩))) := by
  refine ⟨?_, ?_, ?_⟩
  · have hstep : ∀ e ∈ c.files, GystB.diffFile stringifyCommit st c e
        = .ok ⟨e.path, GystB.getFileContent stringifyCommit st e.hash,
               .firstCommit⟩ := by
      intro e _
      simp [GystB.diffFile, hp, jsTruthy]
    simp [GystB.showCommitDiff, hh, hc, loopFiles_ok _ _ _ hstep]
  · have hrep : ∀ e ∈ c.files, ∀ o,
        GystA.diffFile stringifyCommit st c e = .ok o →
        o.report = .firstCommit := by
      intro e _ o hstep
      cases hfc : GystA.getFileContent stringifyCommit st e.hash with
      | none => simp [GystA.diffFile, hfc] at hstep
      | some s =>
        simp [GystA.diffFile, hfc, hp, jsTruthy] at hstep
        rw [← hstep]
    simp only [GystA.showCommitDiff, hc]
    exact loopFiles_outputs_report _ _ _ hrep
  · intro hres
    have hstep : ∀ e ∈ c.files, GystA.diffFile stringifyCommit st c e
        = .ok ⟨e.path, (GystA.getFileContent stringifyCommit st e.hash).getD "",
               .firstCommit⟩ := by
      intro e he
      have hsome : (st.objects.find e.hash).isSome := by
        simpa [resolves] using hres e he
      rcases Option.isSome_iff_exists.mp hsome with ⟨o, ho⟩
      simp [GystA.diffFile, GystA.getFileContent, ho, hp, jsTruthy]
    simp [GystA.showCommitDiff, hc, loopFiles_ok _ _ _ hstep]

/-- C7 (witness): a concrete root commit with one stored file — both
variants report "first commit" for it and produce no diff runs. -/
theorem c7_witness :
    GystB.showCommitDiff sampleStringify stRoot "H1"
      = .ok [⟨"a.txt", "A", .firstCommit⟩] ∧
    GystA.showCommitDiff sampleStringify stRoot "H1"
      = .ok [⟨"a.txt", "A", .firstCommit⟩] := by
  have h := c7_first_commit_diff sampleStringify stRoot "H1" "H1" cRoot rfl rfl rfl
  exact ⟨h.1, h.2.2 (by decide)⟩

/-- C8: history termination — a HEAD digest reaching a stored acyclic
parent chain of N commits ending in a `null` parent makes the walk of
either variant yield exactly those N commits, from HEAD to root, and
terminate normally (any fuel bound at least N suffices, so the loop
never runs forever). -/
theorem c8_history_termination (st : RepoState) (h : String)
    (cs : List (String × Commit)) (fuel : Nat)
    (hh : st.head = some h) (htrim : jsTrim h = h)
    (hchain : Chain st.objects h cs) (hfuel : cs.length ≤ fuel) :
    GystA.log st fuel = .ok cs ∧ GystB.log st fuel = some (.ok cs) := by
  have hne : h ≠ "" := by
    cases hchain with
    | root _ _ hne _ _ => exact hne
    | step _ _ _ _ hne _ _ _ => exact hne
  have hb : (h == "") = false := by simpa using hne
  have hloop := chain_logLoop st h cs hchain fuel hfuel
  have hgch : GystB.getCurrentHead st = some h := by
    simp [GystB.getCurrentHead, hh, htrim, hb]
  constructor
  · simpa [GystA.log, GystA.getCurrentHead, hh] using hloop
  · simp [GystB.log, hh, hgch, jsTruthy, hb, hloop]

/-- C8 (witness): the concrete two-commit chain "K2" → "K1" → root is
walked completely, in order, by both variants with fuel 2. -/
theorem c8_witness :
    GystA.log stChain 2 = .ok [("K2", cChain2), ("K1", cChain1)] ∧
    GystB.log stChain 2 = some (.ok [("K2", cChain2), ("K1", cChain1)]) :=
  c8_history_termination stChain "K2" [("K2", cChain2), ("K1", cChain1)] 2
    rfl (by decide)
    (Chain.step "K2" "K1" cChain2 [("K1", cChain1)] (by decide) rfl rfl
      (Chain.root "K1" cChain1 (by decide) rfl rfl))
    (by decide)

/-- Writing one object and replacing the index with entries that are
either the written digest or old entries preserves pointer integrity. -/
theorem pointerIntegrity_after_add (st : RepoState) (fileHash : String)
    (v : GObj) (newIndex : List IndexEntry)
    (h : pointerIntegrity st = true)
    (hni : ∀ e ∈ newIndex, e.hash = fileHash ∨ e ∈ st.index) :
    pointerIntegrity ⟨st.objects.write fileHash v, st.head, newIndex⟩ = true := by
  simp only [pointerIntegrity, Bool.and_eq_true, List.all_eq_true] at h ⊢
  obtain ⟨h1, h2⟩ := h
  refine ⟨?_, ?_⟩
  · cases hh : st.head with
    | none => rfl
    | some hd =>
      rw [hh] at h1
      simp only [resolves_write, Bool.or_eq_true] at h1 ⊢
      tauto
  · intro e he
    simp only [resolves_write, Bool.or_eq_true]
    rcases hni e he with h3 | h3
    · left
      simp [h3]
    · have h4 := h2 e h3
      tauto

/-- A state whose HEAD is exactly the digest just written and whose
index is empty has pointer integrity. -/
theorem pointerIntegrity_after_commit (store : Store) (ch : String) (v : GObj) :
    pointerIntegrity ⟨store.write ch v, some ch, []⟩ = true := by
  simp [pointerIntegrity, resolves, Store.find_write_self]

/-- C10: pointer integrity is an invariant of every completed operation —
in both variants, `add` writes the blob into the store before recording
its index entry and `commit` writes the commit object before advancing
HEAD, so from any state whose non-empty HEAD and index hashes all
resolve, the state after `add` or after `commit` again has every
recorded digest resolving to a stored object. -/
theorem c10_pointer_integrity (hashObject : String → String)
    (stringifyCommit : Commit → String) (st : RepoState)
    (fileToBeAdded fileData timeStamp message : String)
    (h : pointerIntegrity st = true) :
    pointerIntegrity (GystA.add hashObject st fileToBeAdded fileData) = true ∧
    pointerIntegrity (GystB.add hashObject st fileToBeAdded fileData) = true ∧
    pointerIntegrity (GystA.commit hashObject stringifyCommit st timeStamp message).1
      = true ∧
    pointerIntegrity (GystB.commit hashObject stringifyCommit st timeStamp message).1
      = true := by
  refine ⟨?_, ?_, ?_, ?_⟩
  · show pointerIntegrity ⟨st.objects.write (hashObject fileData) (.blob fileData),
      st.head, st.index ++ [⟨fileToBeAdded, hashObject fileData⟩]⟩ = true
    apply pointerIntegrity_after_add st _ _ _ h
    intro e he
    rcases List.mem_append.mp he with h3 | h3
    · right
      exact h3
    · left
      rw [List.mem_singleton.mp h3]
  · show pointerIntegrity ⟨st.objects.write (hashObject fileData) (.blob fileData),
      st.head,
      st.index.filter (fun entry => !(entry.path == fileToBeAdded))
        ++ [⟨fileToBeAdded, hashObject fileData⟩]⟩ = true
    apply pointerIntegrity_after_add st _ _ _ h
    intro e he
    rcases List.mem_append.mp he with h3 | h3
    · right
      exact (List.mem_filter.mp h3).1
    · left
      rw [List.mem_singleton.mp h3]
  · exact pointerIntegrity_after_commit st.objects _ _
  · unfold GystB.commit
    split
    · exact h
    · exact pointerIntegrity_after_commit st.objects _ _

/-- C10 (witness): the invariant holds of the concrete root-commit state
and is preserved by `add` and `commit` of both variants there. -/
theorem c10_witness :
    pointerIntegrity stRoot = true ∧
    (pointerIntegrity (GystA.add sampleHash stRoot "b.txt" "B") = true ∧
     pointerIntegrity (GystB.add sampleHash stRoot "b.txt" "B") = true ∧
     pointerIntegrity (GystA.commit sampleHash sampleStringify stRoot "t3" "m3").1
       = true ∧
     pointerIntegrity (GystB.commit sampleHash sampleStringify stRoot "t3" "m3").1
       = true) :=
  ⟨by decide,
   c10_pointer_integrity sampleHash sampleStringify stRoot "b.txt" "B" "t3" "m3"
     (by decide)⟩
